import Mathlib

/-!
Verification of the decoding core of `src/decode.py` (EU Digital Covid
Certificate parser).  The Python functions `b45decode`, `grouper`,
`parse_payload` and the field-extraction part of `main` are shallowly
embedded as Lean functions; external collaborators (zlib inflate,
cbor2 loads) are taken as function parameters.  Errors are modelled
with the error taxonomy used by the specification; each error
constructor corresponds to the Python exception raised at the
corresponding program point.
-/

namespace CovidCert

/-- Error kinds of the decoding pipeline.  Each constructor stands for the
Python exception raised at the matching program point of `src/decode.py`:
`invalidCharacter` for the `ValueError` of `str.index` (line 85, with the
offending character and its 0-based position in the decoder input),
`truncatedInput` for the `TypeError` of `None * 45` on a fill value
(line 87), `overflow` for the `ValueError` of `bytes()` on an out-of-range
item (line 94), `malformedEnvelope` for the unpacking/attribute failures of
line 97, and the remaining constructors for failures of the external
collaborators and of the field extraction in `main`. -/
inductive DecodeError where
  | invalidCharacter (c : Char) (pos : Nat)
  | truncatedInput
  | overflow
  | decompressionError
  | malformedEnvelope
  | missingClaim (k : Int)
  | missingField (k : String)
  | invalidTimestamp
  | noDoseRecords
  | typeError
  deriving DecidableEq, Repr

/-- The 45-character alphabet `B45_CHRSET` of `src/decode.py` line 83. -/
def B45_CHRSET : List Char := "0123456789ABCDEFGHIJKLMNOPQRSTUVWXYZ $%*+-./:".toList

/-- Python `str.index` restricted to single characters: the first index of
`c` in `l`, or `none` where Python raises `ValueError`. -/
def str_index : List Char → Char → Option Nat
  | [], _ => none
  | a :: rest, c => if a = c then some 0 else (str_index rest c).map (· + 1)

/-- The generator expression `(B45_CHRSET.index(rchr) for rchr in b45encoded)`
of line 85, run to completion while tracking the 0-based input position:
either the list of all character codes, or the first invalid character.
(Python evaluates these lookups lazily while grouping, but a lookup for a
given position always runs before anything later in the group loop, so
eager left-to-right evaluation gives the same result.) -/
def chr_codes : List Char → Nat → Except DecodeError (List Nat)
  | [], _ => .ok []
  | c :: rest, pos =>
    match str_index B45_CHRSET c with
    | none => .error (.invalidCharacter c pos)
    | some v =>
      match chr_codes rest (pos + 1) with
      | .error e => .error e
      | .ok tl => .ok (v :: tl)

/-- `grouper(chr_codes, 3)` of lines 78-80, specialised to the use site:
`itertools.zip_longest` over three copies of one iterator with
`fillvalue=None` yields consecutive triples, the last one padded with
`none`. -/
def grouper : List Nat → List (Nat × Option Nat × Option Nat)
  | [] => []
  | [c] => [(c, none, none)]
  | [c, d] => [(c, some d, none)]
  | c :: d :: e :: rest => (c, some d, some e) :: grouper rest

/-- The body of the `for _c, _d, _e in grouper(...)` loop of lines 86-90:
`_n = _c + _d*45 + (_e or 0)*45*45`; a full triple yields `_n >> 8` then
`0xff & _n`, a `(c, d, none)` pair yields only `0xff & _n`, and a group
with `_d = None` raises `TypeError` (`None * 45`), modelled as
`truncatedInput`. -/
def emitGroup : Nat × Option Nat × Option Nat → Except DecodeError (List Nat)
  | (_, none, _) => .error .truncatedInput
  | (c, some d, none) => .ok [(c + d * 45) &&& 0xff]
  | (c, some d, some e) =>
      .ok [(c + d * 45 + e * 45 * 45) >>> 8, (c + d * 45 + e * 45 * 45) &&& 0xff]

/-- `b45decode` of lines 84-90, run to completion and collected into a
list: the concatenation of the per-group yields, or the first error
raised by the generator.  No range check happens here — the generator
itself never inspects the magnitude of the values it yields. -/
def b45decode (s : List Char) : Except DecodeError (List Nat) :=
  match chr_codes s 0 with
  | .error e => .error e
  | .ok codes =>
    match (grouper codes).mapM emitGroup with
    | .error e => .error e
    | .ok groups => .ok groups.flatten

/-- `bytes(b45decode(raw_qr_data))` of line 94: the generator is consumed
item by item by the `bytes` constructor, which raises `ValueError`
(modelled `overflow`) as soon as a yielded value is not in `0..255`.
The per-group evaluation order of the Python code is kept: character
lookups of the group first (left to right), then the `None` check, then
the range check of the high byte `_n >> 8` (the low byte `0xff & _n` and
the pair byte are always in range, so `bytes` never rejects them). -/
def b45bytes : List Char → Nat → Except DecodeError (List Nat)
  | [], _ => .ok []
  | [c0], pos =>
    match str_index B45_CHRSET c0 with
    | none => .error (.invalidCharacter c0 pos)
    | some _ => .error .truncatedInput
  | [c0, c1], pos =>
    match str_index B45_CHRSET c0 with
    | none => .error (.invalidCharacter c0 pos)
    | some c =>
      match str_index B45_CHRSET c1 with
      | none => .error (.invalidCharacter c1 (pos + 1))
      | some d => .ok [(c + d * 45) &&& 0xff]
  | c0 :: c1 :: c2 :: rest, pos =>
    match str_index B45_CHRSET c0 with
    | none => .error (.invalidCharacter c0 pos)
    | some c =>
      match str_index B45_CHRSET c1 with
      | none => .error (.invalidCharacter c1 (pos + 1))
      | some d =>
        match str_index B45_CHRSET c2 with
        | none => .error (.invalidCharacter c2 (pos + 2))
        | some e =>
          if (c + d * 45 + e * 45 * 45) >>> 8 ≥ 256 then .error .overflow
          else
            match b45bytes rest (pos + 3) with
            | .error er => .error er
            | .ok tl =>
                .ok (((c + d * 45 + e * 45 * 45) >>> 8) ::
                     ((c + d * 45 + e * 45 * 45) &&& 0xff) :: tl)

/-- `bytes(b45decode(s))` as called by `parse_payload` (line 94). -/
def b45decodeBytes (s : List Char) : Except DecodeError (List Nat) :=
  b45bytes s 0

/-- The alphabet values of an input string when every character is in the
alphabet: `codesOf s = some codes` states that each character of `s` has
an alphabet position and `codes` lists those positions in order. -/
def codesOf : List Char → Option (List Nat)
  | [] => some []
  | c :: rest =>
    match str_index B45_CHRSET c, codesOf rest with
    | some v, some vs => some (v :: vs)
    | _, _ => none

/-- The byte sequence the specification's algorithm text assigns to a code
sequence: each full group `c, d, e` contributes `n / 256` then `n % 256`
with `n = c + 45·d + 2025·e`, a final pair `c, d` contributes
`(c + 45·d) % 256`.  Written with `/` and `%` following the spec's words,
to be compared with the source's `>>>`/`&&&`. -/
def b45SpecGroups : List Nat → List Nat
  | [] => []
  | [_] => []
  | [c, d] => [(c + 45 * d) % 256]
  | c :: d :: e :: rest =>
      (c + 45 * d + 2025 * e) / 256 :: (c + 45 * d + 2025 * e) % 256 ::
        b45SpecGroups rest

/-- Every full 3-character group of the code sequence has value at most
65535 (the 16-bit range condition of the spec). -/
def full3Ok : List Nat → Bool
  | c :: d :: e :: rest => decide (c + d * 45 + e * 45 * 45 ≤ 65535) && full3Ok rest
  | _ => true

/-- The final 2-character group, when present, has value at most 255 (the
8-bit range condition of the spec). -/
def lastPairOk : List Nat → Bool
  | [] => true
  | [_] => true
  | [c, d] => decide (c + d * 45 ≤ 255)
  | _ :: _ :: _ :: rest => lastPairOk rest

/-- In-memory structured values as produced by the external `cbor2.loads`
collaborator: integers, byte strings, text strings, arrays, maps and
tagged values (a `cbor2.CBORTag` with a tag number and inner value). -/
inductive Cbor where
  | int (n : Int)
  | bytes (bs : List Nat)
  | text (s : String)
  | arr (xs : List Cbor)
  | map (kvs : List (Cbor × Cbor))
  | tag (n : Nat) (v : Cbor)

/-- Equality of Python dict keys as used by the decoded maps.  Keys coming
out of `cbor2` that can sit in a dict are hashable leaves (ints, strings,
byte strings); composite values can never be dict keys, so comparing
leaves only is faithful. -/
def keyEq : Cbor → Cbor → Bool
  | .int a, .int b => a == b
  | .text a, .text b => a == b
  | .bytes a, .bytes b => a == b
  | _, _ => false

/-- Python dict lookup `d[k]` on a decoded map, `none` where Python raises
`KeyError`. -/
def dictLookup : List (Cbor × Cbor) → Cbor → Option Cbor
  | [], _ => none
  | (k, v) :: rest, key => if keyEq k key then some v else dictLookup rest key

/-- The envelope destructuring of `parse_payload` line 97:
`protected, unprotected, payload, signature = cbor_web_token.value`.
The decoded top-level value must be a tagged value (`.value` raises
`AttributeError` otherwise) whose content unpacks into exactly 4
elements (`ValueError` otherwise); both failures are the spec's
`MalformedEnvelope`.  On success the element at index 2 is returned
unchanged — no element kind is inspected. -/
def parse_envelope (wt : Cbor) : Except DecodeError Cbor :=
  match wt with
  | .tag _ (.arr [_, _, payload, _]) => .ok payload
  | _ => .error .malformedEnvelope

/-- `payload['v'][0]` of `main` line 120 on the certificate body:
a missing key `'v'` raises `KeyError` and an empty sequence raises
`IndexError`; the specification names both `NoDoseRecords`.  A non-empty
sequence yields its first entry; entries after the first are never
touched. -/
def getVaxData (body : Cbor) : Except DecodeError Cbor :=
  match body with
  | .map kvs =>
    match dictLookup kvs (.text "v") with
    | none => .error .noDoseRecords
    | some (.arr []) => .error .noDoseRecords
    | some (.arr (x :: _)) => .ok x
    | some _ => .error .typeError
  | _ => .error .typeError

/-- Integer-keyed subscript `payload[k]` of `main` (lines 116-118) on the
decoded top-level claim map; a missing key raises `KeyError`, the spec's
`MissingClaim`. -/
def claimGet (p : Cbor) (k : Int) : Except DecodeError Cbor :=
  match p with
  | .map kvs =>
    match dictLookup kvs (.int k) with
    | some v => .ok v
    | none => .error (.missingClaim k)
  | _ => .error .typeError

/-- String-keyed subscript `m[k]` of `main` (lines 119-131) on a decoded
map; a missing key raises `KeyError`, the spec's `MissingField`. -/
def fieldGet (m : Cbor) (k : String) : Except DecodeError Cbor :=
  match m with
  | .map kvs =>
    match dictLookup kvs (.text k) with
    | some v => .ok v
    | none => .error (.missingField k)
  | _ => .error .typeError

/-- `time.gmtime(x)` of `main` lines 116-117, reduced to its
failure-relevant shape: a non-integer argument raises `TypeError`, the
spec's `InvalidTimestamp`; an integer is accepted. -/
def gmtime (v : Cbor) : Except DecodeError Int :=
  match v with
  | .int n => .ok n
  | _ => .error .invalidTimestamp

/-- The record assembled by the field-extraction part of `main`
(lines 116-131): issue/expiry timestamps, the four name fields, date of
birth, and the five fields of the first vaccination-dose entry.
Manufacturer/product display lookup is presentation-layer and excluded. -/
structure CertificateRecord where
  issue_time : Int
  expire_time : Int
  fn : Cbor
  gn : Cbor
  fnt : Cbor
  gnt : Cbor
  dob : Cbor
  dn : Cbor
  sd : Cbor
  dt : Cbor
  ma : Cbor
  mp : Cbor

/-- The field-extraction stage of `main` lines 116-131, in the order the
subscripts are evaluated: `payload[6]`, `payload[4]` (fed to `gmtime`),
`payload[-260][1]`, `['nam']`, `['v'][0]`, then the name, dob and dose
fields read by the print statements. -/
def extract_record (payload : Cbor) : Except DecodeError CertificateRecord := do
  let issue ← gmtime (← claimGet payload 6)
  let expire ← gmtime (← claimGet payload 4)
  let body0 ← claimGet payload (-260)
  let body ← claimGet body0 1
  let name ← fieldGet body "nam"
  let vax ← getVaxData body
  let fn ← fieldGet name "fn"
  let gn ← fieldGet name "gn"
  let fnt ← fieldGet name "fnt"
  let gnt ← fieldGet name "gnt"
  let dob ← fieldGet body "dob"
  let dn ← fieldGet vax "dn"
  let sd ← fieldGet vax "sd"
  let dt ← fieldGet vax "dt"
  let ma ← fieldGet vax "ma"
  let mp ← fieldGet vax "mp"
  return ⟨issue, expire, fn, gn, fnt, gnt, dob, dn, sd, dt, ma, mp⟩

/-- `parse_payload` of lines 93-98.  The external collaborators
`zlib.decompress` and `cbor2.loads` are passed in as functions `inflate`
and `cloads`.  Stages in order: base45 decode collected by `bytes()`,
inflate, structured-object decode, envelope destructuring, and the
structured-object decode of the payload byte string (`cbor2.loads`
raises `TypeError` on a non-bytes argument). -/
def parse_payload (inflate : List Nat → Except DecodeError (List Nat))
    (cloads : List Nat → Except DecodeError Cbor)
    (raw_qr_data : List Char) : Except DecodeError Cbor :=
  match b45decodeBytes raw_qr_data with
  | .error e => .error e
  | .ok deflate_data =>
    match inflate deflate_data with
    | .error e => .error e
    | .ok inflated =>
      match cloads inflated with
      | .error e => .error e
      | .ok cbor_web_token =>
        match parse_envelope cbor_web_token with
        | .error e => .error e
        | .ok (.bytes payload) => cloads payload
        | .ok _ => .error .typeError

/-- The decoding pipeline of `main` line 115 onwards:
`parse_payload(_input[4:])` followed by the field extraction.  The first
4 characters are dropped unconditionally and never inspected. -/
def decode_certificate (inflate : List Nat → Except DecodeError (List Nat))
    (cloads : List Nat → Except DecodeError Cbor)
    (raw : List Char) : Except DecodeError CertificateRecord :=
  match parse_payload inflate cloads (raw.drop 4) with
  | .error e => .error e
  | .ok payload => extract_record payload

/-! ### Helper lemmas -/

theorem and255_eq_mod (x : Nat) : x &&& 0xff = x % 256 := by
  have h := Nat.and_pow_two_sub_one_eq_mod x 8
  norm_num at h
  exact h

theorem shiftRight8_eq_div (x : Nat) : x >>> 8 = x / 256 := by
  have h := Nat.shiftRight_eq_div_pow x 8
  norm_num at h
  exact h

/-- Recursion principle following the 3-step group structure of the
decoder. -/
theorem list3_ind {α : Type} {P : List α → Prop} (h0 : P []) (h1 : ∀ a, P [a])
    (h2 : ∀ a b, P [a, b])
    (h3 : ∀ a b c rest, P rest → P (a :: b :: c :: rest)) : ∀ l, P l
  | [] => h0
  | [a] => h1 a
  | [a, b] => h2 a b
  | a :: b :: c :: rest => h3 a b c rest (list3_ind h0 h1 h2 h3 rest)

theorem codesOf_cons {c : Char} {rest : List Char} {codes : List Nat}
    (h : codesOf (c :: rest) = some codes) :
    ∃ v vs, str_index B45_CHRSET c = some v ∧ codesOf rest = some vs ∧
      codes = v :: vs := by
  unfold codesOf at h
  cases hv : str_index B45_CHRSET c <;> rw [hv] at h
  · simp at h
  · cases hr : codesOf rest <;> rw [hr] at h
    · simp at h
    · exact ⟨_, _, rfl, rfl, (Option.some.injEq _ _).mp h.symm⟩

theorem codesOf_length : ∀ {s : List Char} {codes : List Nat},
    codesOf s = some codes → codes.length = s.length := by
  intro s
  induction s with
  | nil => intro codes h; unfold codesOf at h; simp_all
  | cons c rest ih =>
    intro codes h
    obtain ⟨v, vs, _, hr, rfl⟩ := codesOf_cons h
    simp [ih hr]

theorem chr_codes_ok : ∀ {s : List Char} {codes : List Nat} (pos : Nat),
    codesOf s = some codes → chr_codes s pos = .ok codes := by
  intro s
  induction s with
  | nil => intro codes pos h; unfold codesOf at h; simp_all [chr_codes]
  | cons c rest ih =>
    intro codes pos h
    obtain ⟨v, vs, hv, hr, rfl⟩ := codesOf_cons h
    simp [chr_codes, hv, ih (pos + 1) hr]

theorem mapM_emit_ok : ∀ codes : List Nat, codes.length % 3 ≠ 1 →
    ∃ gs, (grouper codes).mapM emitGroup = Except.ok gs ∧
      gs.flatten = b45SpecGroups codes := by
  refine list3_ind ?_ ?_ ?_ ?_
  · intro _
    exact ⟨[], rfl, rfl⟩
  · intro a h
    simp at h
  · intro a b _
    refine ⟨[[(a + b * 45) &&& 0xff]], rfl, ?_⟩
    simp [b45SpecGroups, and255_eq_mod]
    ring_nf
  · intro a b c rest ih hlen
    have hlen' : rest.length % 3 ≠ 1 := by
      simp only [List.length_cons] at hlen
      omega
    obtain ⟨gs, hgs, hflat⟩ := ih hlen'
    refine ⟨[(a + b * 45 + c * 45 * 45) >>> 8,
             (a + b * 45 + c * 45 * 45) &&& 0xff] :: gs, ?_, ?_⟩
    · show ((a, some b, some c) :: grouper rest).mapM emitGroup = _
      simp only [List.mapM_cons, hgs]
      rfl
    · simp [b45SpecGroups, hflat, and255_eq_mod, shiftRight8_eq_div]
      constructor <;> ring_nf

theorem mapM_emit_trunc : ∀ codes : List Nat, codes.length % 3 = 1 →
    (grouper codes).mapM emitGroup = Except.error DecodeError.truncatedInput := by
  refine list3_ind ?_ ?_ ?_ ?_
  · intro h; simp at h
  · intro a _
    rfl
  · intro a b h; simp at h
  · intro a b c rest ih hlen
    have hlen' : rest.length % 3 = 1 := by
      simp only [List.length_cons] at hlen
      omega
    show ((a, some b, some c) :: grouper rest).mapM emitGroup = _
    simp only [List.mapM_cons, ih hlen']
    rfl

theorem b45SpecGroups_length : ∀ codes : List Nat, codes.length % 3 ≠ 1 →
    (b45SpecGroups codes).length =
      2 * (codes.length / 3) + (if codes.length % 3 = 2 then 1 else 0) := by
  refine list3_ind ?_ ?_ ?_ ?_
  · intro _; rfl
  · intro a h; simp at h
  · intro a b _; simp [b45SpecGroups]
  · intro a b c rest ih hlen
    have hlen' : rest.length % 3 ≠ 1 := by
      simp only [List.length_cons] at hlen
      omega
    have := ih hlen'
    simp only [b45SpecGroups, List.length_cons, this]
    by_cases hc : rest.length % 3 = 2
    · rw [if_pos hc, if_pos (by omega)]
      omega
    · rw [if_neg hc, if_neg (by omega)]
      omega

theorem b45SpecGroups_le : ∀ codes : List Nat, full3Ok codes = true →
    ∀ x ∈ b45SpecGroups codes, x ≤ 255 := by
  refine list3_ind ?_ ?_ ?_ ?_
  · intro _ x hx; simp [b45SpecGroups] at hx
  · intro a _ x hx; simp [b45SpecGroups] at hx
  · intro a b _ x hx
    simp [b45SpecGroups] at hx
    omega
  · intro a b c rest ih hok x hx
    simp only [full3Ok, Bool.and_eq_true, decide_eq_true_eq] at hok
    simp only [b45SpecGroups, List.mem_cons] at hx
    rcases hx with rfl | hx
    · have : a + 45 * b + 2025 * c ≤ 65535 := by omega
      omega
    rcases hx with rfl | hx
    · omega
    · exact ih hok.2 x hx

theorem b45decode_eq (s : List Char) (codes : List Nat)
    (h1 : chr_codes s 0 = Except.ok codes) :
    b45decode s =
      match (grouper codes).mapM emitGroup with
      | .error e => .error e
      | .ok groups => .ok groups.flatten := by
  unfold b45decode
  rw [h1]

theorem b45bytes_ok : ∀ s : List Char, ∀ codes : List Nat, ∀ pos : Nat,
    codesOf s = some codes → s.length % 3 ≠ 1 → full3Ok codes = true →
    b45bytes s pos = Except.ok (b45SpecGroups codes) := by
  refine list3_ind ?_ ?_ ?_ ?_
  · intro codes pos h _ _
    simp only [codesOf, Option.some.injEq] at h
    subst h
    rfl
  · intro a codes pos _ hlen _
    simp at hlen
  · intro a b codes pos h _ _
    obtain ⟨v, vs, hv, hr, rfl⟩ := codesOf_cons h
    obtain ⟨w, ws, hw, hr2, rfl⟩ := codesOf_cons hr
    simp only [codesOf, Option.some.injEq] at hr2
    subst hr2
    simp only [b45bytes, hv, hw, b45SpecGroups, and255_eq_mod, Except.ok.injEq,
      List.cons.injEq, and_true]
    omega
  · intro a b c rest ih codes pos h hlen hok
    obtain ⟨v0, vs0, hv0, hr0, rfl⟩ := codesOf_cons h
    obtain ⟨v1, vs1, hv1, hr1, rfl⟩ := codesOf_cons hr0
    obtain ⟨v2, vs2, hv2, hr2, rfl⟩ := codesOf_cons hr1
    have hlen' : rest.length % 3 ≠ 1 := by
      simp only [List.length_cons] at hlen
      omega
    simp only [full3Ok, Bool.and_eq_true, decide_eq_true_eq] at hok
    have hdiv : (v0 + v1 * 45 + v2 * 45 * 45) >>> 8 < 256 := by
      rw [shiftRight8_eq_div]
      omega
    simp only [b45bytes, hv0, hv1, hv2]
    rw [if_neg (by omega)]
    rw [ih vs2 (pos + 3) hr2 hlen' hok.2]
    simp only [b45SpecGroups, and255_eq_mod, shiftRight8_eq_div, Except.ok.injEq,
      List.cons.injEq]
    refine ⟨by omega, by omega, trivial⟩

theorem b45bytes_overflow : ∀ s : List Char, ∀ codes : List Nat, ∀ pos : Nat,
    codesOf s = some codes → s.length % 3 ≠ 1 → full3Ok codes = false →
    b45bytes s pos = Except.error DecodeError.overflow := by
  refine list3_ind ?_ ?_ ?_ ?_
  · intro codes pos h _ hko
    simp only [codesOf, Option.some.injEq] at h
    subst h
    simp [full3Ok] at hko
  · intro a codes pos _ hlen _
    simp at hlen
  · intro a b codes pos h _ hko
    obtain ⟨v, vs, hv, hr, rfl⟩ := codesOf_cons h
    obtain ⟨w, ws, hw, hr2, rfl⟩ := codesOf_cons hr
    simp only [codesOf, Option.some.injEq] at hr2
    subst hr2
    simp [full3Ok] at hko
  · intro a b c rest ih codes pos h hlen hko
    obtain ⟨v0, vs0, hv0, hr0, rfl⟩ := codesOf_cons h
    obtain ⟨v1, vs1, hv1, hr1, rfl⟩ := codesOf_cons hr0
    obtain ⟨v2, vs2, hv2, hr2, rfl⟩ := codesOf_cons hr1
    have hlen' : rest.length % 3 ≠ 1 := by
      simp only [List.length_cons] at hlen
      omega
    simp only [full3Ok, Bool.and_eq_false_iff] at hko
    simp only [b45bytes, hv0, hv1, hv2]
    by_cases hbig : v0 + v1 * 45 + v2 * 45 * 45 ≤ 65535
    · have hdiv : (v0 + v1 * 45 + v2 * 45 * 45) >>> 8 < 256 := by
        rw [shiftRight8_eq_div]
        omega
      rw [if_neg (by omega)]
      have hko' : full3Ok vs2 = false := by
        rcases hko with hh | hh
        · simp at hh
          omega
        · exact hh
      rw [ih vs2 (pos + 3) hr2 hlen' hko']
    · have hdiv : (v0 + v1 * 45 + v2 * 45 * 45) >>> 8 ≥ 256 := by
        rw [shiftRight8_eq_div]
        omega
      rw [if_pos hdiv]

theorem chr_codes_first_err : ∀ (s : List Char) (i : Nat) (hi : i < s.length)
    (pos : Nat),
    str_index B45_CHRSET (s.get ⟨i, hi⟩) = none →
    (∀ j (hj : j < s.length), j < i → str_index B45_CHRSET (s.get ⟨j, hj⟩) ≠ none) →
    chr_codes s pos =
      Except.error (.invalidCharacter (s.get ⟨i, hi⟩) (pos + i)) := by
  intro s
  induction s with
  | nil => intro i hi; simp at hi
  | cons a rest ih =>
    intro i hi pos hbad hgood
    cases i with
    | zero =>
      simp only [List.get] at hbad ⊢
      simp [chr_codes, hbad]
    | succ k =>
      have ha : str_index B45_CHRSET a ≠ none := by
        have := hgood 0 (by simp) (Nat.succ_pos k)
        simpa [List.get] using this
      cases hv : str_index B45_CHRSET a with
      | none => exact absurd hv ha
      | some v =>
        have hk : k < rest.length := by
          simp only [List.length_cons] at hi
          omega
        have hbad' : str_index B45_CHRSET (rest.get ⟨k, hk⟩) = none := by
          simpa [List.get] using hbad
        have hgood' : ∀ j (hj : j < rest.length), j < k →
            str_index B45_CHRSET (rest.get ⟨j, hj⟩) ≠ none := by
          intro j hj hjk
          have := hgood (j + 1) (by simp only [List.length_cons]; omega)
            (by omega)
          simpa [List.get] using this
        have := ih k hk (pos + 1) hbad' hgood'
        simp only [chr_codes, hv, this, List.get]
        have harith : pos + 1 + k = pos + (k + 1) := by omega
        rw [harith]

theorem drop4_append {α : Type} (p : List α) (hp : p.length = 4) (rest : List α) :
    (p ++ rest).drop 4 = rest := by
  rcases p with _ | ⟨a, _ | ⟨b, _ | ⟨c, _ | ⟨d, tl⟩⟩⟩⟩ <;> simp_all

/-! ### Claim theorems -/

/-- Claim C1: for every base45 input string whose characters are all in the
45-character alphabet and whose length mod 3 is not 1, the decoder
partitions the characters into consecutive groups of 3 (the final group may
have 2 members); a full group with values c, d, e yields
`n = c + 45·d + 2025·e` and emits `n >> 8` then `n & 0xFF`, and a final
pair with values c, d emits the single value `(c + 45·d) & 0xFF`, in group
order — exactly the sequence `b45SpecGroups` assigns to the code list. -/
theorem b45decode_emits_groups (s : List Char) (codes : List Nat)
    (hc : codesOf s = some codes) (hlen : s.length % 3 ≠ 1) :
    b45decode s = Except.ok (b45SpecGroups codes) := by
  have h1 := chr_codes_ok 0 hc
  have hlen2 : codes.length % 3 ≠ 1 := by
    rw [codesOf_length hc]
    exact hlen
  obtain ⟨gs, hgs, hflat⟩ := mapM_emit_ok codes hlen2
  rw [b45decode_eq s codes h1, hgs]
  show Except.ok gs.flatten = _
  rw [hflat]

/-- Witness for C1 at the concrete input `"BB8"` (codes 11, 11, 8), which
decodes to the bytes 65, 66. -/
theorem b45decode_emits_groups_witness :
    codesOf "BB8".toList = some [11, 11, 8] ∧ "BB8".toList.length % 3 ≠ 1 ∧
      b45decode "BB8".toList = Except.ok (b45SpecGroups [11, 11, 8]) :=
  ⟨by decide, by decide,
    b45decode_emits_groups "BB8".toList [11, 11, 8] (by decide) (by decide)⟩

/-- Claim C3: for every input of length n whose characters are all in the
alphabet, with n mod 3 ≠ 1 and every group within its byte range, the
decoder produces `2·⌊n/3⌋ + (1 if n mod 3 = 2 else 0)` bytes; in
particular the empty input decodes to the empty byte sequence. -/
theorem b45decode_output_length (s : List Char) (codes : List Nat)
    (hc : codesOf s = some codes) (hlen : s.length % 3 ≠ 1)
    (_h3 : full3Ok codes = true) (_h2 : lastPairOk codes = true) :
    (∃ l, b45decode s = Except.ok l ∧
        l.length = 2 * (s.length / 3) + (if s.length % 3 = 2 then 1 else 0)) ∧
      b45decode [] = Except.ok [] := by
  refine ⟨⟨b45SpecGroups codes, ?_, ?_⟩, rfl⟩
  · have h1 := chr_codes_ok 0 hc
    have hlen2 : codes.length % 3 ≠ 1 := by
      rw [codesOf_length hc]
      exact hlen
    obtain ⟨gs, hgs, hflat⟩ := mapM_emit_ok codes hlen2
    rw [b45decode_eq s codes h1, hgs]
    show Except.ok gs.flatten = _
    rw [hflat]
  · have hlen2 : codes.length % 3 ≠ 1 := by
      rw [codesOf_length hc]
      exact hlen
    rw [b45SpecGroups_length codes hlen2, codesOf_length hc]

/-- Witness for C3 at the concrete input `"BB8"` (3 characters, 2 bytes). -/
theorem b45decode_output_length_witness :
    (∃ l, b45decode "BB8".toList = Except.ok l ∧
        l.length = 2 * ("BB8".toList.length / 3) +
          (if "BB8".toList.length % 3 = 2 then 1 else 0)) ∧
      b45decode [] = Except.ok [] :=
  b45decode_output_length "BB8".toList [11, 11, 8] (by decide) (by decide)
    (by decide) (by decide)

/-- Claim C5: any input containing a character outside the 45-character
alphabet fails with `invalidCharacter`, carrying the (first) offending
character and its 0-based position in the input. -/
theorem b45decode_invalid_char (s : List Char) (i : Nat) (hi : i < s.length)
    (hbad : str_index B45_CHRSET (s.get ⟨i, hi⟩) = none)
    (hfirst : ∀ j (hj : j < s.length), j < i →
      str_index B45_CHRSET (s.get ⟨j, hj⟩) ≠ none) :
    b45decode s =
      Except.error (DecodeError.invalidCharacter (s.get ⟨i, hi⟩) i) := by
  have h := chr_codes_first_err s i hi 0 hbad hfirst
  simp only [Nat.zero_add] at h
  simp [b45decode, h]

/-- Witness for C5 at the concrete input `"0a"`: the lowercase letter at
position 1 is reported. -/
theorem b45decode_invalid_char_witness :
    b45decode "0a".toList =
      Except.error (DecodeError.invalidCharacter
        ("0a".toList.get ⟨1, by decide⟩) 1) :=
  b45decode_invalid_char "0a".toList 1 (by decide) (by decide) (by decide)

/-- Claim C6 as stated is false at the concrete input `"a"`: its length
mod 3 is 1, yet decoding fails with `invalidCharacter`, not
`truncatedInput` (character validation happens while the characters of a
group are drawn, before the incomplete final group is detected). -/
theorem b45_truncated_claim_cex :
    "a".toList.length % 3 = 1 ∧
      b45decode "a".toList ≠ Except.error DecodeError.truncatedInput := by
  refine ⟨by decide, ?_⟩
  have h : b45decode "a".toList =
      Except.error (DecodeError.invalidCharacter 'a' 0) := rfl
  rw [h]
  simp

/-- Claim C6 amended: for every input string of alphabet characters whose
length mod 3 equals 1, base45 decoding fails with `truncatedInput` and no
decoded byte sequence is produced. -/
theorem b45decode_truncated (s : List Char) (codes : List Nat)
    (hc : codesOf s = some codes) (hlen : s.length % 3 = 1) :
    b45decode s = Except.error DecodeError.truncatedInput := by
  have h1 := chr_codes_ok 0 hc
  have hlen2 : codes.length % 3 = 1 := by
    rw [codesOf_length hc]
    exact hlen
  rw [b45decode_eq s codes h1, mapM_emit_trunc codes hlen2]

/-- Witness for amended C6 at the length-1 alphabet input `"0"`. -/
theorem b45decode_truncated_witness :
    b45decode "0".toList = Except.error DecodeError.truncatedInput :=
  b45decode_truncated "0".toList [0] (by decide) (by decide)

/-- Claim C2 as stated is false at the concrete input `"::"`: the final
2-character group has value 44 + 45·44 = 2024 > 255, yet collecting the
decoder output succeeds — the masked byte 2024 & 0xFF = 232 is silently
produced instead of an `overflow` error. -/
theorem b45_overflow_claim_cex :
    44 + 45 * 44 > 255 ∧
      b45decodeBytes "::".toList = Except.ok [232] :=
  ⟨by decide, rfl⟩

/-- Claim C2 amended: when the decoder output is collected into a byte
sequence, a full 3-character group with value above 65535 makes the
collection fail with `overflow` (its high byte `n >> 8` exceeds 255), but
a final 2-character group with value above 255 causes no error: the
masked byte `n & 0xFF` is silently produced.  First conjunct: some full
group out of range (and no earlier error) means the whole decode is the
`overflow` error.  Second conjunct: with all full groups in range the
decode succeeds whatever the value of the final pair, emitting the masked
byte for it. -/
theorem b45_overflow_behaviour :
    (∀ (s : List Char) (codes : List Nat), codesOf s = some codes →
        s.length % 3 ≠ 1 → full3Ok codes = false →
        b45decodeBytes s = Except.error DecodeError.overflow) ∧
    (∀ (s : List Char) (codes : List Nat), codesOf s = some codes →
        s.length % 3 ≠ 1 → full3Ok codes = true →
        b45decodeBytes s = Except.ok (b45SpecGroups codes)) :=
  ⟨fun s codes hc hl hk => b45bytes_overflow s codes 0 hc hl hk,
   fun s codes hc hl hk => b45bytes_ok s codes 0 hc hl hk⟩

/-- Witness for amended C2: `":::"` (one overflowing full group) fails
with `overflow`, while `"::"` (overflowing final pair, value 2024)
succeeds with the masked byte. -/
theorem b45_overflow_behaviour_witness :
    b45decodeBytes ":::".toList = Except.error DecodeError.overflow ∧
      b45decodeBytes "::".toList = Except.ok (b45SpecGroups [44, 44]) :=
  ⟨b45_overflow_behaviour.1 ":::".toList [44, 44, 44] (by decide) (by decide)
      (by decide),
   b45_overflow_behaviour.2 "::".toList [44, 44] (by decide) (by decide)
      (by decide)⟩

/-- Claim C10: for every base45 input with alphabet characters, length
mod 3 ≠ 1, every full group at most 65535 and the final pair at most 255,
every integer yielded by the decoder is in 0..255, so collecting the
output into a byte sequence never fails. -/
theorem b45_bytes_in_range (s : List Char) (codes : List Nat)
    (hc : codesOf s = some codes) (hlen : s.length % 3 ≠ 1)
    (h3 : full3Ok codes = true) (_h2 : lastPairOk codes = true) :
    ∃ l, b45decodeBytes s = Except.ok l ∧ ∀ x ∈ l, x ≤ 255 :=
  ⟨b45SpecGroups codes, b45bytes_ok s codes 0 hc hlen h3,
    b45SpecGroups_le codes h3⟩

/-- Witness for C10 at the concrete input `"BB8"`. -/
theorem b45_bytes_in_range_witness :
    ∃ l, b45decodeBytes "BB8".toList = Except.ok l ∧ ∀ x ∈ l, x ≤ 255 :=
  b45_bytes_in_range "BB8".toList [11, 11, 8] (by decide) (by decide)
    (by decide) (by decide)

/-- Claim C4 as stated is false: an envelope whose elements at indices
0, 1, 3 are integers (not byte strings / a map) does not fail with
`malformedEnvelope` — the payload element at index 2 is returned, because
the destructuring assignment only checks the element count, never the
element kinds. -/
theorem envelope_kind_check_cex :
    parse_envelope (Cbor.tag 18 (Cbor.arr
        [Cbor.int 1, Cbor.int 2, Cbor.bytes [160], Cbor.int 3])) =
      Except.ok (Cbor.bytes [160]) := rfl

/-- Claim C4 amended: after decompression the decoded top-level value must
be a tagged value wrapping an ordered sequence of exactly 4 elements; a
wrong element count fails with `malformedEnvelope`, but the kinds of the
4 elements are not checked, and on success the payload element at index 2
is returned unchanged (whatever its kind) for further decoding. -/
theorem envelope_extraction_behaviour :
    (∀ (n : Nat) (a b c d : Cbor),
        parse_envelope (Cbor.tag n (Cbor.arr [a, b, c, d])) = Except.ok c) ∧
    (∀ (n : Nat) (xs : List Cbor), xs.length ≠ 4 →
        parse_envelope (Cbor.tag n (Cbor.arr xs)) =
          Except.error DecodeError.malformedEnvelope) := by
  constructor
  · intro n a b c d
    rfl
  · intro n xs hx
    rcases xs with _ | ⟨a, _ | ⟨b, _ | ⟨c, _ | ⟨d, _ | ⟨e, tl⟩⟩⟩⟩⟩ <;>
      simp_all [parse_envelope]

/-- Witness for amended C4: a well-shaped envelope returns its third
element; a 3-element sequence is rejected. -/
theorem envelope_extraction_behaviour_witness :
    parse_envelope (Cbor.tag 18 (Cbor.arr
        [Cbor.bytes [1], Cbor.map [], Cbor.bytes [2], Cbor.bytes [3]])) =
      Except.ok (Cbor.bytes [2]) ∧
    parse_envelope (Cbor.tag 18 (Cbor.arr
        [Cbor.bytes [1], Cbor.map [], Cbor.bytes [2]])) =
      Except.error DecodeError.malformedEnvelope :=
  ⟨envelope_extraction_behaviour.1 18 (Cbor.bytes [1]) (Cbor.map [])
      (Cbor.bytes [2]) (Cbor.bytes [3]),
   envelope_extraction_behaviour.2 18
      [Cbor.bytes [1], Cbor.map [], Cbor.bytes [2]] (by decide)⟩

/-- Claim C8: two decoded envelopes that agree on the payload element at
index 2 but differ arbitrarily in the protected-header element (index 0),
the unprotected-header element (index 1), the signature element (index 3)
— and even the tag number — extract to the same result: only the payload
element matters. -/
theorem envelope_payload_only (n m : Nat) (a b d a2 b2 d2 c : Cbor) :
    parse_envelope (Cbor.tag n (Cbor.arr [a, b, c, d])) =
      parse_envelope (Cbor.tag m (Cbor.arr [a2, b2, c, d2])) := rfl

/-- Claim C7: on a certificate body whose key `'v'` is absent or maps to
an empty sequence, dose extraction fails with `noDoseRecords`; on a body
whose `'v'` sequence is non-empty, the first entry is returned and the
result does not depend on the entries after the first. -/
theorem vax_dose_extraction (kvs kvs2 : List (Cbor × Cbor)) :
    (dictLookup kvs (Cbor.text "v") = none →
        getVaxData (Cbor.map kvs) = Except.error DecodeError.noDoseRecords) ∧
    (dictLookup kvs (Cbor.text "v") = some (Cbor.arr []) →
        getVaxData (Cbor.map kvs) = Except.error DecodeError.noDoseRecords) ∧
    (∀ (x : Cbor) (r r2 : List Cbor),
        dictLookup kvs (Cbor.text "v") = some (Cbor.arr (x :: r)) →
        dictLookup kvs2 (Cbor.text "v") = some (Cbor.arr (x :: r2)) →
        getVaxData (Cbor.map kvs) = Except.ok x ∧
          getVaxData (Cbor.map kvs2) = Except.ok x) := by
  refine ⟨?_, ?_, ?_⟩
  · intro h
    simp [getVaxData, h]
  · intro h
    simp [getVaxData, h]
  · intro x r r2 h h2
    constructor
    · simp [getVaxData, h]
    · simp [getVaxData, h2]

/-- Witness for C7: absent `'v'`, empty `'v'`, and two bodies sharing the
first dose entry but differing afterwards. -/
theorem vax_dose_extraction_witness :
    getVaxData (Cbor.map []) = Except.error DecodeError.noDoseRecords ∧
    getVaxData (Cbor.map [(Cbor.text "v", Cbor.arr [])]) =
      Except.error DecodeError.noDoseRecords ∧
    (getVaxData (Cbor.map [(Cbor.text "v", Cbor.arr [Cbor.int 1])]) =
        Except.ok (Cbor.int 1) ∧
      getVaxData (Cbor.map [(Cbor.text "v", Cbor.arr [Cbor.int 1, Cbor.int 2])]) =
        Except.ok (Cbor.int 1)) :=
  ⟨(vax_dose_extraction [] []).1 rfl,
   (vax_dose_extraction [(Cbor.text "v", Cbor.arr [])] []).2.1 rfl,
   (vax_dose_extraction [(Cbor.text "v", Cbor.arr [Cbor.int 1])]
       [(Cbor.text "v", Cbor.arr [Cbor.int 1, Cbor.int 2])]).2.2
     (Cbor.int 1) [] [Cbor.int 2] rfl rfl⟩

/-- Claim C9: the pipeline drops exactly the first 4 characters without
validating them (two raw inputs with the same remainder decode alike),
and runs base45-decode, decompress, envelope-decode, payload-decode and
field-extraction in strict sequence: a failure at any stage aborts the
whole pipeline with that stage's error, and only when every stage
succeeds is the extracted record returned. -/
theorem pipeline_structure
    (inflate : List Nat → Except DecodeError (List Nat))
    (cloads : List Nat → Except DecodeError Cbor) :
    (∀ (p q rest : List Char), p.length = 4 → q.length = 4 →
        decode_certificate inflate cloads (p ++ rest) =
          decode_certificate inflate cloads (q ++ rest)) ∧
    (∀ (raw : List Char) (e : DecodeError),
        b45decodeBytes (raw.drop 4) = Except.error e →
        decode_certificate inflate cloads raw = Except.error e) ∧
    (∀ (raw : List Char) (bs : List Nat) (e : DecodeError),
        b45decodeBytes (raw.drop 4) = Except.ok bs →
        inflate bs = Except.error e →
        decode_certificate inflate cloads raw = Except.error e) ∧
    (∀ (raw : List Char) (bs ds : List Nat) (e : DecodeError),
        b45decodeBytes (raw.drop 4) = Except.ok bs →
        inflate bs = Except.ok ds →
        cloads ds = Except.error e →
        decode_certificate inflate cloads raw = Except.error e) ∧
    (∀ (raw : List Char) (bs ds : List Nat) (wt : Cbor) (e : DecodeError),
        b45decodeBytes (raw.drop 4) = Except.ok bs →
        inflate bs = Except.ok ds →
        cloads ds = Except.ok wt →
        parse_envelope wt = Except.error e →
        decode_certificate inflate cloads raw = Except.error e) ∧
    (∀ (raw : List Char) (e : DecodeError),
        parse_payload inflate cloads (raw.drop 4) = Except.error e →
        decode_certificate inflate cloads raw = Except.error e) ∧
    (∀ (raw : List Char) (payload : Cbor),
        parse_payload inflate cloads (raw.drop 4) = Except.ok payload →
        decode_certificate inflate cloads raw = extract_record payload) := by
  refine ⟨?_, ?_, ?_, ?_, ?_, ?_, ?_⟩
  · intro p q rest hp hq
    unfold decode_certificate
    rw [drop4_append p hp rest, drop4_append q hq rest]
  · intro raw e h
    unfold decode_certificate parse_payload
    rw [h]
  · intro raw bs e h h2
    unfold decode_certificate parse_payload
    simp only [h, h2]
  · intro raw bs ds e h h2 h3
    unfold decode_certificate parse_payload
    simp only [h, h2, h3]
  · intro raw bs ds wt e h h2 h3 h4
    unfold decode_certificate parse_payload
    simp only [h, h2, h3, h4]
  · intro raw e h
    unfold decode_certificate
    rw [h]
  · intro raw payload h
    unfold decode_certificate
    rw [h]

/-- Witness for C9: concrete external collaborators, a prefix-insensitivity
instance (`HC1:` versus `XXXX`), and a first-stage abort on an invalid
base45 character after the prefix. -/
theorem pipeline_structure_witness :
    decode_certificate (fun bs => Except.ok bs)
        (fun _ => Except.error DecodeError.typeError)
        ("HC1:".toList ++ "BB8".toList) =
      decode_certificate (fun bs => Except.ok bs)
        (fun _ => Except.error DecodeError.typeError)
        ("XXXX".toList ++ "BB8".toList) ∧
    decode_certificate (fun bs => Except.ok bs)
        (fun _ => Except.error DecodeError.typeError) "HC1:a".toList =
      Except.error (DecodeError.invalidCharacter 'a' 0) :=
  ⟨(pipeline_structure (fun bs => Except.ok bs)
      (fun _ => Except.error DecodeError.typeError)).1
      "HC1:".toList "XXXX".toList "BB8".toList (by decide) (by decide),
   (pipeline_structure (fun bs => Except.ok bs)
      (fun _ => Except.error DecodeError.typeError)).2.1
      "HC1:a".toList (DecodeError.invalidCharacter 'a' 0) rfl⟩

end CovidCert
